import Mathlib

/-!
Shallow embedding of the ghard contact manager (Go) and proofs about its
specification.

Go strings are modeled as lists of characters (`GoStr`); for valid UTF-8 the
byte-wise order and containment used by the Go standard library agree with the
character-wise versions modeled here.  `strings.ToLower` is modeled by the
ASCII case mapping of `Char.toLower`; `unicode.IsSpace` by the ASCII
whitespace test.  `time.Time` is modeled by its calendar fields (`GoTime`);
the zero `time.Time` is January 1 of year 1, 00:00:00 UTC, and `time.Now()`
enters only through its year, which is passed explicitly as `currentYear`.
-/

namespace Ghard

/-- Go strings, modeled as lists of characters. -/
abbrev GoStr := List Char

/-- Models `strings.ToLower` (ASCII case mapping). -/
def goToLower (s : GoStr) : GoStr := s.map Char.toLower

/-- Whitespace test modeling `unicode.IsSpace` on the ASCII range. -/
def isSpaceChar (c : Char) : Bool :=
  c = ' ' || c = '\t' || c = '\n' || c = '\r' || c = '\x0b' || c = '\x0c'

/-- Models `strings.TrimSpace`: leading and trailing whitespace removed. -/
def goTrimSpace (s : GoStr) : GoStr :=
  ((s.reverse.dropWhile isSpaceChar).reverse).dropWhile isSpaceChar

/-- Models `strings.HasPrefix(s, p)`: `p` is a leading segment of `s`. -/
def leadsWith : GoStr → GoStr → Bool
  | _, [] => true
  | [], _ :: _ => false
  | c :: s, p :: ps => c = p && leadsWith s ps

/-- Models `strings.Contains(s, sub)`: `sub` occurs contiguously in `s`. -/
def goContains : GoStr → GoStr → Bool
  | [], sub => sub.isEmpty
  | c :: t, sub => leadsWith (c :: t) sub || goContains t sub

/-- Models `strings.Join(parts, sep)`. -/
def goJoin (sep : GoStr) : List GoStr → GoStr
  | [] => []
  | [p] => p
  | p :: q :: ps => p ++ sep ++ goJoin sep (q :: ps)

/-- Go byte-wise string comparison `a < b` (lexicographic; on valid UTF-8 the
byte order agrees with the code-point order modeled here). -/
def goStrLt : GoStr → GoStr → Bool
  | [], [] => false
  | [], _ :: _ => true
  | _ :: _, [] => false
  | a :: s, b :: t =>
    if a.toNat < b.toNat then true
    else if b.toNat < a.toNat then false
    else goStrLt s t

/-- Calendar-field model of Go `time.Time` (the fields this program observes;
nanoseconds and location are never observed by ghard and are omitted). -/
structure GoTime where
  year : Nat
  month : Nat
  day : Nat
  hour : Nat
  minute : Nat
  second : Nat
deriving DecidableEq

/-- The zero `time.Time`: January 1, year 1, 00:00:00. -/
def zeroGoTime : GoTime := ⟨1, 1, 1, 0, 0, 0⟩

/-- Models `Time.IsZero`. -/
def isZero (t : GoTime) : Bool := decide (t = zeroGoTime)

/-- One email entry of a contact (pkg/vcard `EmailEntry`). -/
structure EmailEntry where
  value : GoStr
  type : GoStr
deriving DecidableEq

/-- One phone entry of a contact (pkg/vcard `PhoneEntry`). -/
structure PhoneEntry where
  value : GoStr
  type : GoStr
deriving DecidableEq

/-- The canonical contact record (pkg/vcard `Contact`).  The Go fields
`Prefix` and `Suffix` are called `prefixName` and `suffixName` here. -/
structure Contact where
  name : GoStr
  familyName : GoStr
  givenName : GoStr
  middleName : GoStr
  prefixName : GoStr
  suffixName : GoStr
  emails : List EmailEntry
  phones : List PhoneEntry
  organization : GoStr
  note : GoStr
  address : GoStr
  birthday : GoTime
  fileName : GoStr
deriving DecidableEq

/-- The contact with every field empty and an absent birthday. -/
def blankContact : Contact :=
  ⟨[], [], [], [], [], [], [], [], [], [], [], zeroGoTime, []⟩

/-! ### Birthday normalizer (pkg/vcard: parseBirthday, FormatBirthdayForDisplay) -/

/-- Decimal digit test on a character. -/
def isDigitChar (c : Char) : Bool := 48 ≤ c.toNat && c.toNat ≤ 57

/-- Numeric value of a digit character. -/
def digitVal (c : Char) : Nat := c.toNat - 48

/-- The character for the decimal digit `n` (meaningful for `n < 10`). -/
def digitChar (n : Nat) : Char := Char.ofNat (48 + n)

/-- Decimal digits of a positive number, most significant first (fueled). -/
def natDigitsAux : Nat → Nat → GoStr
  | 0, _ => []
  | _ + 1, 0 => []
  | fuel + 1, n + 1 => natDigitsAux fuel ((n + 1) / 10) ++ [digitChar ((n + 1) % 10)]

/-- Decimal rendering of a natural number. -/
def natDigits (n : Nat) : GoStr := if n = 0 then ['0'] else natDigitsAux n n

/-- Models the `fmt` verb `%02d`. -/
def pad2 (n : Nat) : GoStr :=
  if n < 100 then [digitChar (n / 10), digitChar (n % 10)] else natDigits n

/-- Models the `fmt` verb `%04d`. -/
def pad4 (n : Nat) : GoStr :=
  if n < 10000 then
    [digitChar (n / 1000), digitChar (n / 100 % 10), digitChar (n / 10 % 10), digitChar (n % 10)]
  else natDigits n

/-- A fixed-width run of digit characters read as a number, as Go
`time.Parse` reads numeric layout fields. -/
def parseFixedNat (s : GoStr) : Option Nat :=
  if s.all isDigitChar then some (s.foldl (fun a c => 10 * a + digitVal c) 0) else none

/-- Gregorian leap-year rule used by Go `time`. -/
def isLeapYear (y : Nat) : Bool := y % 4 = 0 && (y % 100 ≠ 0 || y % 400 = 0)

/-- Number of days of month `m` in year `y`, as Go `time` computes it. -/
def daysIn (y m : Nat) : Nat :=
  if m = 2 then (if isLeapYear y then 29 else 28)
  else if m = 4 ∨ m = 6 ∨ m = 9 ∨ m = 11 then 30
  else 31

/-- Validity of month and day fields, as Go `time.Parse` checks them
before constructing the date. -/
def validMonthDay (y m d : Nat) : Bool :=
  decide (1 ≤ m) && decide (m ≤ 12) && decide (1 ≤ d) && decide (d ≤ daysIn y m)

/-- Go `time.Parse` with layout `"2006-01-02"`: exactly ten characters,
four year digits, literal dashes, two month and two day digits, with the
month and day ranges checked.  (Go additionally accepts a sign in the year
field; signed years are not produced by any vCard birthday considered by
the spec and are not modeled.) -/
def parseISODate (s : GoStr) : Option GoTime :=
  match s with
  | [y1, y2, y3, y4, s1, m1, m2, s2, d1, d2] =>
    if s1 = '-' ∧ s2 = '-' then
      match parseFixedNat [y1, y2, y3, y4], parseFixedNat [m1, m2], parseFixedNat [d1, d2] with
      | some y, some m, some d =>
        if validMonthDay y m d then some ⟨y, m, d, 0, 0, 0⟩ else none
      | _, _, _ => none
    else none
  | _ => none

/-- Go `time.Parse` with layout `"20060102"`. -/
def parseCompactDate (s : GoStr) : Option GoTime :=
  match s with
  | [y1, y2, y3, y4, m1, m2, d1, d2] =>
    match parseFixedNat [y1, y2, y3, y4], parseFixedNat [m1, m2], parseFixedNat [d1, d2] with
    | some y, some m, some d =>
      if validMonthDay y m d then some ⟨y, m, d, 0, 0, 0⟩ else none
    | _, _, _ => none
  | _ => none

/-- Go `time.Parse` with layout `"--01-02"` (year absent, so year 0). -/
def parseNoYearDashed (s : GoStr) : Option GoTime :=
  match s with
  | ['-', '-', m1, m2, s1, d1, d2] =>
    if s1 = '-' then
      match parseFixedNat [m1, m2], parseFixedNat [d1, d2] with
      | some m, some d =>
        if validMonthDay 0 m d then some ⟨0, m, d, 0, 0, 0⟩ else none
      | _, _ => none
    else none
  | _ => none

/-- Go `time.Parse` with layout `"--0102"` (year absent, so year 0). -/
def parseNoYearCompact (s : GoStr) : Option GoTime :=
  match s with
  | ['-', '-', m1, m2, d1, d2] =>
    match parseFixedNat [m1, m2], parseFixedNat [d1, d2] with
    | some m, some d =>
      if validMonthDay 0 m d then some ⟨0, m, d, 0, 0, 0⟩ else none
    | _, _ => none
  | _ => none

/-- Reading the hour field for the layout chunk `"15"`: Go `getnum` with
`fixed = false` takes two digits when two are available, else one. -/
def parseHourRest (s : GoStr) : Option (Nat × GoStr) :=
  match s with
  | a :: b :: t =>
    if isDigitChar a then
      if isDigitChar b then some (10 * digitVal a + digitVal b, t)
      else some (digitVal a, b :: t)
    else none
  | [a] => if isDigitChar a then some (digitVal a, []) else none
  | [] => none

/-- Reading `":04:05" ++ tail` after the hour, with fixed two-digit minute
and second fields; returns the minute, second and remaining characters. -/
def parseMinSec (s : GoStr) : Option (Nat × Nat × GoStr) :=
  match s with
  | ':' :: n1 :: n2 :: ':' :: c1 :: c2 :: t =>
    match parseFixedNat [n1, n2], parseFixedNat [c1, c2] with
    | some n, some c => some (n, c, t)
    | _, _ => none
  | _ => none

/-- Go `time.Parse` with layout `"2006-01-02T15:04:05"` followed by the
given literal tail (`"Z"` or nothing), with all range checks. -/
def parseISODateTime (tail : GoStr) (s : GoStr) : Option GoTime :=
  match s with
  | y1 :: y2 :: y3 :: y4 :: '-' :: m1 :: m2 :: '-' :: d1 :: d2 :: 'T' :: rest =>
    match parseFixedNat [y1, y2, y3, y4], parseFixedNat [m1, m2], parseFixedNat [d1, d2] with
    | some y, some m, some d =>
      match parseHourRest rest with
      | some (hh, rest2) =>
        match parseMinSec rest2 with
        | some (mi, se, rest3) =>
          if rest3 = tail ∧ validMonthDay y m d ∧ hh < 24 ∧ mi < 60 ∧ se < 60 then
            some ⟨y, m, d, hh, mi, se⟩
          else none
        | none => none
      | none => none
    | _, _, _ => none
  | _ => none

/-- The format list of `parseBirthday`, tried in order; the first success
wins, exactly as the Go loop over `formats` does. -/
def tryFormats (s : GoStr) : Option GoTime :=
  match parseISODate s with
  | some t => some t
  | none =>
    match parseCompactDate s with
    | some t => some t
    | none =>
      match parseNoYearDashed s with
      | some t => some t
      | none =>
        match parseNoYearCompact s with
        | some t => some t
        | none =>
          match parseISODateTime ['Z'] s with
          | some t => some t
          | none => parseISODateTime [] s

/-- Day-overflow normalization of `time.Date` (fueled; at most one step is
reachable here, for February 29 re-anchored onto a non-leap year). -/
def normDays : Nat → Nat → Nat → Nat → GoTime
  | 0, y, m, d => ⟨y, m, d, 0, 0, 0⟩
  | fuel + 1, y, m, d =>
    if d > daysIn y m then
      if m ≥ 12 then normDays fuel (y + 1) 1 (d - daysIn y m)
      else normDays fuel y (m + 1) (d - daysIn y m)
    else ⟨y, m, d, 0, 0, 0⟩

/-- Models `time.Date(y, m, d, 0, 0, 0, 0, time.UTC)` for `1 ≤ m ≤ 12`. -/
def goDate (y m d : Nat) : GoTime := normDays 24 y m d

/-- pkg/vcard `parseBirthday`: trim, try the fixed format list in order,
re-anchor year-unknown (`"--"`-prefixed) hits onto the current year, then
fall back to the first ten characters as a full ISO date, else the zero
time. -/
def parseBirthday (currentYear : Nat) (birthday : GoStr) : GoTime :=
  let b := goTrimSpace birthday
  if b = [] then zeroGoTime
  else
    match tryFormats b with
    | some t => if leadsWith b ['-', '-'] then goDate currentYear t.month t.day else t
    | none =>
      if 10 ≤ b.length then
        match parseISODate (b.take 10) with
        | some t => t
        | none => zeroGoTime
      else zeroGoTime

/-- pkg/vcard `FormatBirthdayForDisplay`: empty for the zero time, `MM/DD`
when the year equals the current year, else `MM/DD/YYYY`. -/
def FormatBirthdayForDisplay (currentYear : Nat) (birthday : GoTime) : GoStr :=
  if isZero birthday then []
  else if birthday.year = currentYear then
    pad2 birthday.month ++ ['/'] ++ pad2 birthday.day
  else
    pad2 birthday.month ++ ['/'] ++ pad2 birthday.day ++ ['/'] ++ pad4 birthday.year

/-- A birthday string in full ISO `YYYY-MM-DD` form with the given year,
month and day (four year digits, two month digits, two day digits). -/
def isoRender (y m d : Nat) : GoStr := pad4 y ++ ['-'] ++ pad2 m ++ ['-'] ++ pad2 d

/-! ### Name/SortKey deriver and filter engine (internal/app/app.go) -/

/-- app.go `extractSortKey`. -/
def extractSortKey (contact : Contact) : GoStr :=
  if contact.familyName ≠ [] then goToLower contact.familyName
  else if contact.organization ≠ [] ∧ contact.name ≠ [] then goToLower contact.organization
  else if contact.name ≠ [] then goToLower contact.name
  else []

/-- app.go `buildContactSearchText`: the `strings.Builder` writes of the Go
code, each present piece followed by one space, with a final `TrimSpace`. -/
def buildContactSearchText (contact : Contact) : GoStr :=
  goTrimSpace (
    (if contact.name ≠ [] then goToLower contact.name ++ [' '] else [])
    ++ (contact.emails.map fun e =>
          goToLower e.value ++ [' ']
          ++ (if e.type ≠ [] then goToLower e.type ++ [' '] else [])).flatten
    ++ (contact.phones.map fun p =>
          goToLower p.value ++ [' ']
          ++ (if p.type ≠ [] then goToLower p.type ++ [' '] else [])).flatten
    ++ (if contact.organization ≠ [] then goToLower contact.organization ++ [' '] else [])
    ++ (if contact.note ≠ [] then goToLower contact.note ++ [' '] else [])
    ++ (if contact.address ≠ [] then goToLower contact.address ++ [' '] else []))

/-- app.go `matchesFilter`. -/
def matchesFilter (contact : Contact) (filter : List GoStr) : Bool :=
  if filter = [] then true
  else goContains (buildContactSearchText contact) (goToLower (goJoin [' '] filter))

/-- The searchable pieces of a contact in the fixed order the spec gives:
formatted name, then each email value followed by its type when present,
then each phone value and type, then organization, note and address, each
included only when non-empty.  Written from the spec's description of the
blob, to be compared with `buildContactSearchText`. -/
def searchPieces (c : Contact) : List GoStr :=
  (if c.name ≠ [] then [goToLower c.name] else [])
  ++ (c.emails.map fun e =>
        [goToLower e.value] ++ (if e.type ≠ [] then [goToLower e.type] else [])).flatten
  ++ (c.phones.map fun p =>
        [goToLower p.value] ++ (if p.type ≠ [] then [goToLower p.type] else [])).flatten
  ++ (if c.organization ≠ [] then [goToLower c.organization] else [])
  ++ (if c.note ≠ [] then [goToLower c.note] else [])
  ++ (if c.address ≠ [] then [goToLower c.address] else [])

/-- The search blob as the spec describes it: the present pieces joined by
single spaces and trimmed. -/
def searchBlobSpec (c : Contact) : GoStr := goTrimSpace (goJoin [' '] (searchPieces c))

/-! ### Sort engine (internal/app/app.go)

`sortContacts` and `sortContactsByBirthday` call Go's `sort.Slice`, an
external library primitive.  It is modeled by its documented contract: the
output is a permutation of the input ordered according to the provided
`less` function — and nothing more; `sort.Slice` is documented as NOT
guaranteed to be stable. -/

/-- The comparator closure of app.go `sortContacts`. -/
def sortKeyLess (reverse : Bool) (ci cj : Contact) : Bool :=
  if reverse then goStrLt (extractSortKey cj) (extractSortKey ci)
  else goStrLt (extractSortKey ci) (extractSortKey cj)

/-- The comparator closure of app.go `sortContactsByBirthday`. -/
def birthdayLess (reverse : Bool) (ci cj : Contact) : Bool :=
  let timeI := ci.birthday
  let timeJ := cj.birthday
  if isZero timeI && isZero timeJ then false
  else if isZero timeI then false
  else if isZero timeJ then true
  else if timeI.month ≠ timeJ.month then
    (if reverse then decide (timeJ.month < timeI.month) else decide (timeI.month < timeJ.month))
  else
    (if reverse then decide (timeJ.day < timeI.day) else decide (timeI.day < timeJ.day))

/-- Documented contract of Go `sort.Slice` with comparison `less`: the
output is a permutation of the input, ordered so that no later element is
`less` than an earlier one. -/
def sortSliceResult (less : α → α → Bool) (input output : List α) : Prop :=
  input.Perm output ∧ output.Pairwise fun x y => less y x = false

instance (less : α → α → Bool) [DecidableEq α] (input output : List α) :
    Decidable (sortSliceResult less input output) := by
  unfold sortSliceResult; infer_instance

/-- app.go `sortContacts` as a relation between input and possible outputs. -/
def sortContacts (reverse : Bool) (input output : List Contact) : Prop :=
  sortSliceResult (sortKeyLess reverse) input output

instance (reverse : Bool) (input output : List Contact) :
    Decidable (sortContacts reverse input output) := by
  unfold sortContacts; infer_instance

/-- app.go `sortContactsByBirthday` as a relation between input and
possible outputs. -/
def sortContactsByBirthday (reverse : Bool) (input output : List Contact) : Prop :=
  sortSliceResult (birthdayLess reverse) input output

instance (reverse : Bool) (input output : List Contact) :
    Decidable (sortContactsByBirthday reverse input output) := by
  unfold sortContactsByBirthday; infer_instance

/-- The birthday-presence filter of app.go `GetBirthdayContacts`: only
contacts whose `Birthday` is not the zero time are kept. -/
def birthdayContactsFilter (contacts : List Contact) : List Contact :=
  contacts.filter fun c => !isZero c.birthday

/-! ### Contact aggregator (pkg/vcard: LoadContacts, loadContactsFromPath,
processVCardFile)

The filesystem and the external go-vcard decoder are modeled by what they
yield to the code: a path is either missing or a directory whose recursive
walk produces, in encounter order, directory entries, entries the walk
reports an error for, and files; a file carries its extension test, whether
`os.Open` fails, the card blocks the decoder yields (already mapped to
their extracted `Contact` records) and whether decoding ends in a non-EOF
error after those blocks.  Error messages are modeled without the
interpolated path and file names. -/

/-- One file as seen by `processVCardFile`. -/
structure VFile where
  isVcf : Bool
  openFail : Bool
  cards : List Contact
  decodeFail : Bool
deriving DecidableEq

/-- One entry yielded by `filepath.WalkDir` in encounter order. -/
inductive WalkItem
  | dirItem
  | accessErr
  | file (f : VFile)
deriving DecidableEq

/-- One address-book path as seen by `loadContactsFromPath`. -/
inductive PathData
  | missing
  | dir (items : List WalkItem)
deriving DecidableEq

/-- pkg/vcard `processVCardFile`: the contacts appended to the caller's
slice and whether the file was processed without error.  Contacts are
appended block by block as the decoder yields them, so the blocks decoded
before a decode error stay appended even though the file reports an
error. -/
def processVCardFile (f : VFile) : List Contact × Bool :=
  if f.openFail then ([], false)
  else if f.decodeFail then (f.cards, false)
  else if f.cards = [] then ([], false)
  else (f.cards, true)

/-- The running state of the `filepath.WalkDir` callback in
`loadContactsFromPath`. -/
structure WalkState where
  contacts : List Contact
  vcfCount : Nat
  processedCount : Nat
  errorCount : Nat
deriving DecidableEq

/-- One step of the `filepath.WalkDir` callback in `loadContactsFromPath`:
walk errors and directories are skipped, non-`.vcf` files are skipped, and
each `.vcf` file is handed to `processVCardFile`, counting it as processed
or errored. -/
def walkStep (st : WalkState) : WalkItem → WalkState
  | .dirItem => st
  | .accessErr => st
  | .file f =>
    if f.isVcf then
      let r := processVCardFile f
      if r.2 then
        ⟨st.contacts ++ r.1, st.vcfCount + 1, st.processedCount + 1, st.errorCount⟩
      else
        ⟨st.contacts ++ r.1, st.vcfCount + 1, st.processedCount, st.errorCount + 1⟩
    else st

/-- The walk state after scanning a whole directory. -/
def walkDir (items : List WalkItem) : WalkState :=
  items.foldl walkStep ⟨[], 0, 0, 0⟩

/-- The contacts collected while scanning a directory. -/
def walkContacts (items : List WalkItem) : List Contact := (walkDir items).contacts

/-- The number of files that errored while scanning a directory. -/
def walkErrors (items : List WalkItem) : Nat := (walkDir items).errorCount

/-- pkg/vcard `loadContactsFromPath`: missing paths fail; a directory with
zero `.vcf` files fails; a directory where every `.vcf` file errored fails;
otherwise the collected contacts are returned. -/
def loadContactsFromPath : PathData → Except GoStr (List Contact)
  | .missing => .error ("path does not exist".toList)
  | .dir items =>
    if (walkDir items).vcfCount = 0 then
      .error ("no .vcf files found in directory".toList)
    else if (walkDir items).processedCount = 0 ∧ (walkDir items).errorCount > 0 then
      .error ("failed to process any vCard files in directory".toList)
    else .ok (walkDir items).contacts

/-- One iteration of the path loop in `LoadContacts`: a failing path adds
its message to `loadErrors`, a succeeding path appends its contacts. -/
def loadStep (acc : List Contact × List GoStr) (path : PathData) :
    List Contact × List GoStr :=
  match loadContactsFromPath path with
  | .error e => (acc.1, acc.2 ++ [e])
  | .ok cs => (acc.1 ++ cs, acc.2)

/-- pkg/vcard `LoadContacts`: per-path results are accumulated, failures
are collected as messages, and the whole call fails exactly when there is
at least one failure message and zero collected contacts. -/
def LoadContacts (addressBookPaths : List PathData) : Except GoStr (List Contact) :=
  if (addressBookPaths.foldl loadStep ([], [])).2.length > 0
      ∧ (addressBookPaths.foldl loadStep ([], [])).1 = [] then
    .error ("failed to load contacts from any address book".toList)
  else .ok (addressBookPaths.foldl loadStep ([], [])).1

/-- All contacts the per-path loads collect, concatenated in path order
(failed paths contribute nothing). -/
def collectedContacts (paths : List PathData) : List Contact :=
  (paths.map fun p =>
    match loadContactsFromPath p with
    | .ok cs => cs
    | .error _ => []).flatten

/-! ### Export encoder entry point (internal/app/app.go ExportContacts)

Only the input/output sequencing of `ExportContacts` is modeled: the
filesystem is a list of path/payload pairs, `os.Stat` succeeds exactly on
present paths, `os.Create` adds the path with nothing written, and the two
encoders are modeled by tagged payloads recording what was written (no
claim refers to the encoded bytes).  Contact loading and filtering happen
before this point and the contact list is a parameter. -/

/-- What has been written to a destination. -/
inductive Payload
  | empty
  | csvBytes (contacts : List Contact) (delimiter : GoStr)
  | jsonBytes (contacts : List Contact)
deriving DecidableEq

/-- The modeled filesystem of the export step. -/
structure ExpFS where
  files : List (GoStr × Payload)
deriving DecidableEq

/-- Models `os.Stat(path)` succeeding: the path is present. -/
def statExists (fs : ExpFS) (path : GoStr) : Bool :=
  fs.files.any fun pr => pr.1 = path

/-- Models `os.Create(path)`: the path becomes present with nothing
written (creation is assumed to succeed). -/
def createFile (fs : ExpFS) (path : GoStr) : ExpFS :=
  ⟨fs.files ++ [(path, .empty)]⟩

/-- Writing a payload to an existing path. -/
def writeFile (fs : ExpFS) (path : GoStr) (p : Payload) : ExpFS :=
  ⟨fs.files.map fun pr => if pr.1 = path then (pr.1, p) else pr⟩

deriving instance DecidableEq for Except

/-- The observable outcome of `ExportContacts`: the returned error or
success, the final filesystem, and what was written to standard output. -/
structure ExportOutcome where
  result : Except GoStr Unit
  fs : ExpFS
  stdout : List Payload
deriving DecidableEq

/-- app.go `ExportContacts` after loading and filtering: with a non-empty
output path, refuse an existing file, otherwise create the file and only
then switch on the format, writing CSV or JSON or failing on an
unsupported format; with an empty output path, write to standard output. -/
def ExportContacts (format delimiter output : GoStr) (contacts : List Contact)
    (fs : ExpFS) : ExportOutcome :=
  if output ≠ [] then
    if statExists fs output then
      ⟨.error ("output file already exists".toList), fs, []⟩
    else
      if format = "csv".toList then
        ⟨.ok (), writeFile (createFile fs output) output (.csvBytes contacts delimiter), []⟩
      else if format = "json".toList then
        ⟨.ok (), writeFile (createFile fs output) output (.jsonBytes contacts), []⟩
      else ⟨.error ("unsupported format".toList), createFile fs output, []⟩
  else
    if format = "csv".toList then ⟨.ok (), fs, [.csvBytes contacts delimiter]⟩
    else if format = "json".toList then ⟨.ok (), fs, [.jsonBytes contacts]⟩
    else ⟨.error ("unsupported format".toList), fs, []⟩

/-! ### Concrete records used by witnesses and counterexamples -/

/-- A person contact with a structured name. -/
def cJohn : Contact :=
  { blankContact with
    name := "John Doe".toList, familyName := "Doe".toList, givenName := "John".toList }

/-- A second person contact with a different family name. -/
def cJane : Contact :=
  { blankContact with
    name := "Jane Smith".toList, familyName := "Smith".toList, givenName := "Jane".toList }

/-- A contact with only an organization set (no name at all). -/
def acmeOrgOnly : Contact :=
  { blankContact with organization := "Acme Corporation".toList }

/-- First of two contacts sharing the sort key `"doe"`. -/
def cDoeA : Contact :=
  { blankContact with familyName := "Doe".toList, givenName := "Ann".toList }

/-- Second of two contacts sharing the sort key `"doe"`. -/
def cDoeB : Contact :=
  { blankContact with familyName := "Doe".toList, givenName := "Bob".toList }

/-! ### Helper lemmas -/

theorem char_eq_of_toNat_eq {a b : Char} (h : a.toNat = b.toNat) : a = b :=
  Char.eq_of_val_eq (UInt32.ext h)

/-- Totality of the Go string order: a failed comparison means the reverse
comparison holds or the strings are equal. -/
theorem goStrLt_false_elim : ∀ a b : GoStr, goStrLt a b = false →
    goStrLt b a = true ∨ b = a
  | [], [], _ => Or.inr rfl
  | [], _ :: _, h => by simp [goStrLt] at h
  | _ :: _, [], _ => Or.inl rfl
  | a :: s, b :: t, h => by
    simp only [goStrLt] at h ⊢
    by_cases h1 : a.toNat < b.toNat
    · rw [if_pos h1] at h; exact absurd h (by simp)
    · rw [if_neg h1] at h
      by_cases h2 : b.toNat < a.toNat
      · left; rw [if_pos h2]
      · rw [if_neg h2] at h
        have hab : a = b := char_eq_of_toNat_eq (by omega)
        rcases goStrLt_false_elim s t h with h3 | h3
        · left; rw [if_neg h2, if_neg h1, h3]
        · right; rw [hab, h3]

/-! ### C10 -/

/-- C10: `LoadContacts` applied to an empty sequence of paths returns
success with an empty contact list rather than the all-sources-failed
error. -/
theorem LoadContacts_empty_paths : LoadContacts [] = .ok [] := by decide

/-! ### C5 -/

/-- C5: `extractSortKey` returns the lowercased family name when present;
else the lowercased organization when both organization and name are
non-empty; else the lowercased name when present; else the empty string —
so a contact with only an organization yields the empty string, and a
contact with both family name and organization yields the family name. -/
theorem extractSortKey_cases (c : Contact) :
    (c.familyName ≠ [] → extractSortKey c = goToLower c.familyName)
    ∧ (c.familyName = [] → c.organization ≠ [] → c.name ≠ [] →
        extractSortKey c = goToLower c.organization)
    ∧ (c.familyName = [] → c.organization = [] → c.name ≠ [] →
        extractSortKey c = goToLower c.name)
    ∧ (c.familyName = [] → c.name = [] → extractSortKey c = []) := by
  refine ⟨fun h1 => ?_, fun h1 h2 h3 => ?_, fun h1 h2 h3 => ?_, fun h1 h2 => ?_⟩
  · simp [extractSortKey, h1]
  · simp [extractSortKey, h1, h2, h3]
  · simp [extractSortKey, h1, h2, h3]
  · simp [extractSortKey, h1, h2]

/-- Witness for C5 at a concrete contact: an organization-only contact has
empty family name and empty formatted name, and its sort key is empty. -/
theorem extractSortKey_cases_witness :
    acmeOrgOnly.familyName = [] ∧ acmeOrgOnly.name = []
    ∧ acmeOrgOnly.organization ≠ [] ∧ extractSortKey acmeOrgOnly = [] :=
  ⟨rfl, rfl, by decide, (extractSortKey_cases acmeOrgOnly).2.2.2 rfl rfl⟩

/-! ### C3 -/

/-- C3 counterexample: an output permitted by the `sort.Slice` contract in
which two contacts with equal sort keys do not keep their encounter order,
refuting the stability part of the claim (Go documents `sort.Slice` as not
guaranteed to be stable). -/
theorem sortContacts_unstable_output :
    sortContacts false [cDoeA, cDoeB] [cDoeB, cDoeA]
    ∧ extractSortKey cDoeA = extractSortKey cDoeB
    ∧ cDoeA ≠ cDoeB := by decide

/-- C3 amended: `SortByKey` yields a permutation of the input totally
ordered by sort key, ascending unless `reverse`; the relative order of
contacts with equal sort keys is not guaranteed. -/
theorem sortContacts_orders_by_key (reverse : Bool) (input output : List Contact)
    (h : sortContacts reverse input output) :
    input.Perm output ∧
      output.Pairwise (fun x y =>
        if reverse then
          goStrLt (extractSortKey y) (extractSortKey x) = true
            ∨ extractSortKey y = extractSortKey x
        else
          goStrLt (extractSortKey x) (extractSortKey y) = true
            ∨ extractSortKey x = extractSortKey y) := by
  refine ⟨h.1, List.Pairwise.imp ?_ h.2⟩
  intro x y hxy
  cases reverse with
  | false =>
    simp only [sortKeyLess, Bool.false_eq_true, if_false] at hxy
    simpa using goStrLt_false_elim _ _ hxy
  | true =>
    simp only [sortKeyLess, if_true] at hxy
    simpa using goStrLt_false_elim _ _ hxy

/-- Witness for C3 amended at a concrete sorted output. -/
theorem sortContacts_orders_by_key_witness :
    sortContacts false [cJane, cJohn] [cJohn, cJane] ∧
      ([cJane, cJohn].Perm [cJohn, cJane] ∧
        ([cJohn, cJane].Pairwise (fun x y =>
          goStrLt (extractSortKey x) (extractSortKey y) = true
            ∨ extractSortKey x = extractSortKey y))) := by
  refine ⟨by decide, ?_⟩
  have h := sortContacts_orders_by_key false [cJane, cJohn] [cJohn, cJane] (by decide)
  simpa using h

/-! ### C4 -/

/-- The month-then-day order on present birthdays, as the spec states it. -/
def bdLe (s t : GoTime) : Prop := s.month < t.month ∨ (s.month = t.month ∧ s.day ≤ t.day)

/-- If the birthday comparator rejects putting `y` before `x` and `x` has
an absent birthday, then `y` has an absent birthday as well. -/
theorem birthdayLess_absent {reverse : Bool} {x y : Contact}
    (hxy : birthdayLess reverse y x = false) (hx : isZero x.birthday = true) :
    isZero y.birthday = true := by
  by_contra hy
  rw [Bool.not_eq_true] at hy
  simp [birthdayLess, hx, hy] at hxy

/-- If the birthday comparator rejects putting `y` before `x` and both
birthdays are present, the month-then-day order holds from `x` to `y`
(from `y` to `x` when `reverse`). -/
theorem birthdayLess_present {reverse : Bool} {x y : Contact}
    (hxy : birthdayLess reverse y x = false)
    (hx : isZero x.birthday = false) (hy : isZero y.birthday = false) :
    if reverse then bdLe y.birthday x.birthday else bdLe x.birthday y.birthday := by
  simp only [birthdayLess, hx, hy, Bool.false_and, Bool.false_eq_true, if_false] at hxy
  cases reverse with
  | false =>
    simp only [Bool.false_eq_true, if_false] at hxy ⊢
    by_cases hm : y.birthday.month = x.birthday.month
    · rw [if_neg (by simpa using hm)] at hxy
      simp only [Bool.false_eq_true, if_false, decide_eq_false_iff_not, Nat.not_lt] at hxy
      exact Or.inr ⟨hm.symm, hxy⟩
    · rw [if_pos (by simpa using hm)] at hxy
      simp only [Bool.false_eq_true, if_false, decide_eq_false_iff_not, Nat.not_lt] at hxy
      exact Or.inl (by omega)
  | true =>
    simp only [if_true] at hxy ⊢
    by_cases hm : y.birthday.month = x.birthday.month
    · rw [if_neg (by simpa using hm)] at hxy
      simp only [if_true, decide_eq_false_iff_not, Nat.not_lt] at hxy
      exact Or.inr ⟨hm, hxy⟩
    · rw [if_pos (by simpa using hm)] at hxy
      simp only [if_true, decide_eq_false_iff_not, Nat.not_lt] at hxy
      exact Or.inl (by omega)

/-- C4: any output of `SortByBirthday` permitted by the `sort.Slice`
contract is a permutation of the input in which no contact with an absent
birthday ever precedes one with a present birthday (for both values of
`reverse`), and any two present birthdays are ordered month first, then
day, with `reverse` inverting only those month/day comparisons. -/
theorem sortContactsByBirthday_spec (reverse : Bool) (input output : List Contact)
    (h : sortContactsByBirthday reverse input output) :
    input.Perm output ∧
      output.Pairwise (fun x y =>
        (isZero x.birthday = true → isZero y.birthday = true)
        ∧ (isZero x.birthday = false → isZero y.birthday = false →
            if reverse then bdLe y.birthday x.birthday else bdLe x.birthday y.birthday)) := by
  refine ⟨h.1, List.Pairwise.imp ?_ h.2⟩
  intro x y hxy
  refine ⟨fun hx => birthdayLess_absent hxy hx, fun hx hy => ?_⟩
  exact birthdayLess_present hxy hx hy

/-- Witness for C4 at a concrete sorted output: a present March birthday
precedes a present December one, and the absent-birthday contact comes
last. -/
theorem sortContactsByBirthday_spec_witness :
    sortContactsByBirthday false
      [cJohn, { cJane with birthday := ⟨1990, 12, 24, 0, 0, 0⟩ },
        { cDoeA with birthday := ⟨1985, 3, 7, 0, 0, 0⟩ }]
      [{ cDoeA with birthday := ⟨1985, 3, 7, 0, 0, 0⟩ },
        { cJane with birthday := ⟨1990, 12, 24, 0, 0, 0⟩ }, cJohn] ∧
    ([{ cDoeA with birthday := ⟨1985, 3, 7, 0, 0, 0⟩ },
        { cJane with birthday := ⟨1990, 12, 24, 0, 0, 0⟩ }, cJohn].Pairwise
      (fun x y =>
        (isZero x.birthday = true → isZero y.birthday = true)
        ∧ (isZero x.birthday = false → isZero y.birthday = false →
            bdLe x.birthday y.birthday))) := by
  refine ⟨by decide, ?_⟩
  have h := sortContactsByBirthday_spec false
    [cJohn, { cJane with birthday := ⟨1990, 12, 24, 0, 0, 0⟩ },
      { cDoeA with birthday := ⟨1985, 3, 7, 0, 0, 0⟩ }]
    [{ cDoeA with birthday := ⟨1985, 3, 7, 0, 0, 0⟩ },
      { cJane with birthday := ⟨1990, 12, 24, 0, 0, 0⟩ }, cJohn] (by decide)
  simpa using h.2

/-! ### C6 -/

theorem leadsWith_iff : ∀ s p : GoStr, leadsWith s p = true ↔ ∃ r, s = p ++ r
  | s, [] => by simp [leadsWith]
  | [], p :: ps => by simp [leadsWith]
  | c :: t, p :: ps => by
    simp only [leadsWith, Bool.and_eq_true, decide_eq_true_eq, List.cons_append,
      List.cons.injEq]
    rw [leadsWith_iff t ps]
    constructor
    · rintro ⟨h1, r, h2⟩; exact ⟨r, h1, h2⟩
    · rintro ⟨r, h1, h2⟩; exact ⟨h1, r, h2⟩

/-- The Go substring test holds exactly when the needle occurs contiguously
inside the haystack. -/
theorem goContains_iff : ∀ s sub : GoStr, goContains s sub = true ↔ ∃ u v, s = u ++ sub ++ v
  | [], sub => by
    simp only [goContains, List.isEmpty_iff]
    constructor
    · rintro rfl; exact ⟨[], [], rfl⟩
    · rintro ⟨u, v, h⟩
      rcases List.append_eq_nil.mp (List.append_eq_nil.mp h.symm).1 with ⟨_, h2⟩
      exact h2
  | c :: t, sub => by
    simp only [goContains, Bool.or_eq_true]
    rw [leadsWith_iff, goContains_iff t sub]
    constructor
    · rintro (⟨r, h⟩ | ⟨u, v, h⟩)
      · exact ⟨[], r, by simpa using h⟩
      · exact ⟨c :: u, v, by simp [h]⟩
    · rintro ⟨u, v, h⟩
      cases u with
      | nil => exact Or.inl ⟨v, by simpa using h⟩
      | cons a u2 =>
        simp only [List.cons_append, List.cons.injEq] at h
        exact Or.inr ⟨u2, v, h.2⟩

/-- The raw builder content: each piece followed by one space. -/
def withTrail (ps : List GoStr) : GoStr := (ps.map fun p => p ++ [' ']).flatten

theorem withTrail_append (xs ys : List GoStr) :
    withTrail (xs ++ ys) = withTrail xs ++ withTrail ys := by
  simp [withTrail]

theorem withTrail_flatten (ls : List (List GoStr)) :
    withTrail ls.flatten = (ls.map withTrail).flatten := by
  induction ls with
  | nil => rfl
  | cons a l ih => simp [withTrail_append, ih]

theorem withTrail_if (b : Prop) [Decidable b] (x : GoStr) :
    withTrail (if b then [x] else []) = if b then x ++ [' '] else [] := by
  split <;> simp [withTrail]

theorem goTrimSpace_snoc_space (s : GoStr) : goTrimSpace (s ++ [' ']) = goTrimSpace s := by
  simp [goTrimSpace, List.dropWhile_cons, isSpaceChar]

theorem withTrail_eq_join : ∀ ps : List GoStr, ps ≠ [] →
    withTrail ps = goJoin [' '] ps ++ [' ']
  | [], h => absurd rfl h
  | [p], _ => by simp [withTrail, goJoin]
  | p :: q :: ps, _ => by
    have ih := withTrail_eq_join (q :: ps) (by simp)
    simp only [goJoin]
    rw [show withTrail (p :: q :: ps) = p ++ [' '] ++ withTrail (q :: ps) by
      simp [withTrail], ih]
    simp

theorem trim_withTrail (ps : List GoStr) :
    goTrimSpace (withTrail ps) = goTrimSpace (goJoin [' '] ps) := by
  cases ps with
  | nil => rfl
  | cons p ps2 => rw [withTrail_eq_join _ (by simp), goTrimSpace_snoc_space]

theorem withTrail_entry (b : Prop) [Decidable b] (v t : GoStr) :
    withTrail ([v] ++ if b then [t] else []) =
      v ++ [' '] ++ (if b then t ++ [' '] else []) := by
  split <;> simp [withTrail]

/-- The builder-made search text equals the spec's description of the
blob: the present pieces in fixed order, space-joined and trimmed. -/
theorem buildContactSearchText_eq_spec (c : Contact) :
    buildContactSearchText c = searchBlobSpec c := by
  have he : (withTrail ∘ fun e : EmailEntry =>
        [goToLower e.value] ++ if e.type ≠ [] then [goToLower e.type] else []) =
      (fun e : EmailEntry =>
        goToLower e.value ++ [' '] ++ if e.type ≠ [] then goToLower e.type ++ [' '] else []) := by
    funext e
    simp only [Function.comp_apply]
    exact withTrail_entry _ _ _
  have hp : (withTrail ∘ fun p : PhoneEntry =>
        [goToLower p.value] ++ if p.type ≠ [] then [goToLower p.type] else []) =
      (fun p : PhoneEntry =>
        goToLower p.value ++ [' '] ++ if p.type ≠ [] then goToLower p.type ++ [' '] else []) := by
    funext p
    simp only [Function.comp_apply]
    exact withTrail_entry _ _ _
  unfold buildContactSearchText searchBlobSpec
  rw [← trim_withTrail]
  congr 1
  unfold searchPieces
  simp only [withTrail_append, withTrail_flatten, List.map_map, withTrail_if, he, hp]

/-- C6: an empty term list matches everything; a non-empty term list
matches exactly when the terms joined with a single space and lowercased
occur contiguously in the search blob, which is the fixed-order
space-joined trimmed concatenation of the contact's present fields. -/
theorem matchesFilter_spec (c : Contact) (filter : List GoStr) :
    (filter = [] → matchesFilter c filter = true)
    ∧ (filter ≠ [] →
        (matchesFilter c filter = true ↔
          ∃ u v, searchBlobSpec c = u ++ goToLower (goJoin [' '] filter) ++ v)) := by
  constructor
  · intro h; simp [matchesFilter, h]
  · intro h
    rw [matchesFilter, if_neg h, ← buildContactSearchText_eq_spec]
    exact goContains_iff _ _

/-- Witness for C6 at a concrete contact and filter. -/
theorem matchesFilter_spec_witness :
    matchesFilter cJohn [] = true
    ∧ (matchesFilter cJohn ["john".toList, "doe".toList] = true ↔
        ∃ u v, searchBlobSpec cJohn =
          u ++ goToLower (goJoin [' '] ["john".toList, "doe".toList]) ++ v) :=
  ⟨(matchesFilter_spec cJohn []).1 rfl, (matchesFilter_spec cJohn _).2 (by decide)⟩

/-! ### C1 and C2 -/

/-- A file processed without error contributed at least one contact. -/
theorem processVCardFile_ok (f : VFile) (h : (processVCardFile f).2 = true) :
    (processVCardFile f).1 ≠ [] := by
  unfold processVCardFile at h ⊢
  by_cases h1 : f.openFail = true
  · simp [h1] at h
  · by_cases h2 : f.decodeFail = true
    · simp [h1, h2] at h
    · by_cases h3 : f.cards = []
      · simp [h1, h2, h3] at h
      · simp [h1, h2, h3]

/-- The contacts appended by one walk step extend the state's contacts,
independently of the counters. -/
theorem walkStep_contacts (st : WalkState) (item : WalkItem) :
    (walkStep st item).contacts = st.contacts ++ (walkStep ⟨[], 0, 0, 0⟩ item).contacts := by
  cases item with
  | dirItem => simp [walkStep]
  | accessErr => simp [walkStep]
  | file f =>
    simp only [walkStep]
    split
    · split <;> simp
    · simp

/-- The errors counted by one walk step extend the state's error count. -/
theorem walkStep_errors (st : WalkState) (item : WalkItem) :
    (walkStep st item).errorCount = st.errorCount + (walkStep ⟨[], 0, 0, 0⟩ item).errorCount := by
  cases item with
  | dirItem => simp [walkStep]
  | accessErr => simp [walkStep]
  | file f =>
    simp only [walkStep]
    split
    · split <;> simp
    · simp

theorem foldl_walkStep_contacts : ∀ (items : List WalkItem) (st : WalkState),
    (items.foldl walkStep st).contacts = st.contacts ++ walkContacts items
  | [], st => by simp [walkContacts, walkDir]
  | i :: is, st => by
    have h1 := foldl_walkStep_contacts is (walkStep st i)
    have h2 := foldl_walkStep_contacts is (walkStep ⟨[], 0, 0, 0⟩ i)
    simp only [walkContacts, walkDir, List.foldl_cons] at h1 h2 ⊢
    rw [h1, h2, walkStep_contacts st i, List.append_assoc]

theorem foldl_walkStep_errors : ∀ (items : List WalkItem) (st : WalkState),
    (items.foldl walkStep st).errorCount = st.errorCount + walkErrors items
  | [], st => by simp [walkErrors, walkDir]
  | i :: is, st => by
    have h1 := foldl_walkStep_errors is (walkStep st i)
    have h2 := foldl_walkStep_errors is (walkStep ⟨[], 0, 0, 0⟩ i)
    simp only [walkErrors, walkDir, List.foldl_cons] at h1 h2 ⊢
    rw [h1, h2, walkStep_errors st i, Nat.add_assoc]

theorem walkContacts_append (xs ys : List WalkItem) :
    walkContacts (xs ++ ys) = walkContacts xs ++ walkContacts ys := by
  simp only [walkContacts, walkDir, List.foldl_append]
  exact foldl_walkStep_contacts ys (walkDir xs)

theorem walkErrors_append (xs ys : List WalkItem) :
    walkErrors (xs ++ ys) = walkErrors xs + walkErrors ys := by
  simp only [walkErrors, walkDir, List.foldl_append]
  exact foldl_walkStep_errors ys (walkDir xs)

/-- The invariant of the directory walk: the `.vcf` count splits into
processed and errored files, and each processed file contributed at least
one contact. -/
theorem walkDir_inv : ∀ (items : List WalkItem) (st : WalkState),
    st.vcfCount = st.processedCount + st.errorCount →
    st.processedCount ≤ st.contacts.length →
    (items.foldl walkStep st).vcfCount
        = (items.foldl walkStep st).processedCount + (items.foldl walkStep st).errorCount
    ∧ (items.foldl walkStep st).processedCount ≤ (items.foldl walkStep st).contacts.length
  | [], st, h1, h2 => ⟨h1, h2⟩
  | i :: is, st, h1, h2 => by
    rw [List.foldl_cons]
    refine walkDir_inv is (walkStep st i) ?_ ?_
    · cases i with
      | dirItem => exact h1
      | accessErr => exact h1
      | file f =>
        simp only [walkStep]
        split
        · split <;> simp <;> omega
        · exact h1
    · cases i with
      | dirItem => exact h2
      | accessErr => exact h2
      | file f =>
        simp only [walkStep]
        split
        · split
          · next hr =>
            have hne := processVCardFile_ok f hr
            simp only [List.length_append]
            have : 1 ≤ (processVCardFile f).1.length := by
              cases hx : (processVCardFile f).1 with
              | nil => exact absurd hx hne
              | cons a l => simp
            omega
          · simp only [List.length_append]
            omega
        · exact h2

/-- The invariant of the walk, stated for a whole directory scan. -/
theorem walkDir_counts (items : List WalkItem) :
    (walkDir items).vcfCount = (walkDir items).processedCount + (walkDir items).errorCount
    ∧ (walkDir items).processedCount ≤ (walkDir items).contacts.length :=
  walkDir_inv items ⟨[], 0, 0, 0⟩ rfl (by simp)

/-- A path that loads successfully yields at least one contact. -/
theorem loadContactsFromPath_ok_ne_nil (p : PathData) (cs : List Contact)
    (h : loadContactsFromPath p = .ok cs) : cs ≠ [] := by
  cases p with
  | missing => simp [loadContactsFromPath] at h
  | dir items =>
    have hinv := walkDir_counts items
    simp only [loadContactsFromPath] at h
    split at h
    · nomatch h
    · split at h
      · nomatch h
      · next hvcf hpe =>
        injection h with h
        subst h
        intro hnil
        have hlen : (walkDir items).contacts.length = 0 := by rw [hnil]; rfl
        have h1 := hinv.1
        have h2 := hinv.2
        omega

/-- The first accumulator component of the `LoadContacts` loop collects
exactly the per-path contacts in order. -/
theorem foldl_loadStep_fst : ∀ (paths : List PathData) (acc : List Contact × List GoStr),
    (paths.foldl loadStep acc).1 = acc.1 ++ collectedContacts paths
  | [], acc => by simp [collectedContacts]
  | p :: ps, acc => by
    have ih := foldl_loadStep_fst ps (loadStep acc p)
    simp only [List.foldl_cons] at ih ⊢
    rw [ih]
    unfold collectedContacts at *
    cases hp : loadContactsFromPath p with
    | error e => simp [loadStep, hp]
    | ok cs => simp [loadStep, hp]

/-- C1: `LoadContacts` fails only when every path failed and zero contacts
were collected; whenever at least one contact was collected it returns
success with all collected contacts concatenated in path order, even if
some paths or files failed. -/
theorem LoadContacts_degraded (paths : List PathData) :
    ((∃ e, LoadContacts paths = .error e) →
        (∀ p ∈ paths, ∃ msg, loadContactsFromPath p = .error msg)
        ∧ collectedContacts paths = [])
    ∧ (collectedContacts paths ≠ [] →
        LoadContacts paths = .ok (collectedContacts paths)) := by
  have hfst : (paths.foldl loadStep ([], [])).1 = collectedContacts paths := by
    simpa using foldl_loadStep_fst paths ([], [])
  constructor
  · rintro ⟨e, he⟩
    unfold LoadContacts at he
    split at he
    · next hcond =>
      have hnil : collectedContacts paths = [] := by rw [← hfst]; exact hcond.2
      refine ⟨fun p hp => ?_, hnil⟩
      cases hcs : loadContactsFromPath p with
      | error msg => exact ⟨msg, rfl⟩
      | ok cs =>
        exfalso
        have hmem : cs ∈ paths.map fun q =>
            match loadContactsFromPath q with
            | .ok l => l
            | .error _ => [] := by
          refine List.mem_map.mpr ⟨p, hp, ?_⟩
          rw [hcs]
        have : cs = [] := by
          have hflat : (paths.map fun q =>
              match loadContactsFromPath q with
              | .ok l => l
              | .error _ => []).flatten = [] := hnil
          exact List.flatten_eq_nil_iff.mp hflat _ hmem
        exact loadContactsFromPath_ok_ne_nil p cs hcs this
    · nomatch he
  · intro hne
    unfold LoadContacts
    rw [if_neg]
    · rw [hfst]
    · intro hcond
      rw [hfst] at hcond
      exact hne hcond.2

/-- Witness for C1: one missing path plus one good path yields success
with the good path's contacts. -/
theorem LoadContacts_degraded_witness :
    collectedContacts [.missing, .dir [.file ⟨true, false, [cJohn], false⟩]] ≠ []
    ∧ LoadContacts [.missing, .dir [.file ⟨true, false, [cJohn], false⟩]]
        = .ok (collectedContacts [.missing, .dir [.file ⟨true, false, [cJohn], false⟩]]) :=
  ⟨by decide, (LoadContacts_degraded _).2 (by decide)⟩

/-- C2 counterexample: a path holding one cleanly decoded file and one
file whose decoding errors after yielding one card block; the collection
returned for the path contains the decode-error file's card, so that file
is not skipped as a whole. -/
theorem decode_error_file_contributes :
    (VFile.mk true false [cJane] true).decodeFail = true
    ∧ loadContactsFromPath (.dir [.file ⟨true, false, [cJohn], false⟩,
        .file ⟨true, false, [cJane], true⟩]) = .ok [cJohn, cJane]
    ∧ cJane ∈ (VFile.mk true false [cJane] true).cards
    ∧ cJane ∉ (VFile.mk true false [cJohn] false).cards := by decide

/-- C2 amended: a decode error loses only the remainder of the file: the
card blocks decoded before the error have already been appended and do
contribute to the path's collection, the file is counted as one per-file
error, and scanning continues with the other files. -/
theorem decode_error_partial_contribution (pre post : List WalkItem) (f : VFile)
    (h1 : f.isVcf = true) (h2 : f.openFail = false) (h3 : f.decodeFail = true) :
    walkContacts (pre ++ .file f :: post)
        = walkContacts pre ++ f.cards ++ walkContacts post
    ∧ walkErrors (pre ++ .file f :: post) = walkErrors pre + 1 + walkErrors post := by
  have hstep : walkStep ⟨[], 0, 0, 0⟩ (.file f) = ⟨f.cards, 1, 0, 1⟩ := by
    simp [walkStep, processVCardFile, h1, h2, h3]
  constructor
  · rw [show (pre ++ WalkItem.file f :: post) = pre ++ [WalkItem.file f] ++ post by simp,
      walkContacts_append, walkContacts_append]
    have : walkContacts [WalkItem.file f] = f.cards := by
      simp [walkContacts, walkDir, hstep]
    rw [this]
  · rw [show (pre ++ WalkItem.file f :: post) = pre ++ [WalkItem.file f] ++ post by simp,
      walkErrors_append, walkErrors_append]
    have : walkErrors [WalkItem.file f] = 1 := by
      simp [walkErrors, walkDir, hstep]
    rw [this]

/-- Witness for C2 amended at a concrete directory. -/
theorem decode_error_partial_contribution_witness :
    walkContacts [.file ⟨true, false, [cJohn], false⟩, .file ⟨true, false, [cJane], true⟩]
        = walkContacts [.file ⟨true, false, [cJohn], false⟩]
          ++ (VFile.mk true false [cJane] true).cards ++ walkContacts []
    ∧ walkErrors [.file ⟨true, false, [cJohn], false⟩, .file ⟨true, false, [cJane], true⟩]
        = walkErrors [.file ⟨true, false, [cJohn], false⟩] + 1 + walkErrors [] := by
  have h := decode_error_partial_contribution [.file ⟨true, false, [cJohn], false⟩] []
    ⟨true, false, [cJane], true⟩ rfl rfl rfl
  simpa using h

/-! ### C7 -/

/-- C7 counterexample: exporting with an unsupported format name to a
fresh output path reports the unsupported-format error, but the output
file has already been created and is left behind: `os.Create` runs before
the format switch, so I/O is performed before the error. -/
theorem export_unsupported_creates_file :
    (ExportContacts ("xml".toList) (",".toList) ("out".toList) [] ⟨[]⟩).result
        = .error ("unsupported format".toList)
    ∧ (ExportContacts ("xml".toList) (",".toList) ("out".toList) [] ⟨[]⟩).fs
        = ⟨[("out".toList, .empty)]⟩ := by decide

/-- C7 amended: for every contact list, fresh output path and unsupported
format name, `ExportContacts` reports the unsupported-format error and
writes no contact data, but only after creating the output file: the final
filesystem is the input one plus the output path holding nothing. -/
theorem export_unsupported_after_create (format delimiter output : GoStr)
    (contacts : List Contact) (fs : ExpFS)
    (h1 : format ≠ "csv".toList) (h2 : format ≠ "json".toList)
    (h3 : output ≠ []) (h4 : statExists fs output = false) :
    ExportContacts format delimiter output contacts fs
      = ⟨.error ("unsupported format".toList), createFile fs output, []⟩ := by
  unfold ExportContacts
  rw [if_pos h3, if_neg (by simp [h4]), if_neg h1, if_neg h2]

/-- Witness for C7 amended at a concrete export request. -/
theorem export_unsupported_after_create_witness :
    ("pdf".toList ≠ ("csv".toList : GoStr)) ∧ ("pdf".toList ≠ ("json".toList : GoStr))
    ∧ ("o".toList ≠ ([] : GoStr)) ∧ statExists ⟨[]⟩ ("o".toList) = false
    ∧ ExportContacts ("pdf".toList) (";".toList) ("o".toList) [cJohn] ⟨[]⟩
        = ⟨.error ("unsupported format".toList), createFile ⟨[]⟩ ("o".toList), []⟩ :=
  ⟨by decide, by decide, by decide, by decide,
    export_unsupported_after_create _ _ _ _ _ (by decide) (by decide) (by decide) (by decide)⟩

/-! ### C8 and C9: digit and parsing lemmas -/

theorem digitChar_toNat (k : Nat) (h : k < 10) : (digitChar k).toNat = 48 + k := by
  interval_cases k <;> rfl

theorem isDigitChar_digitChar (k : Nat) (h : k < 10) : isDigitChar (digitChar k) = true := by
  interval_cases k <;> rfl

theorem digitVal_digitChar (k : Nat) (h : k < 10) : digitVal (digitChar k) = k := by
  interval_cases k <;> rfl

theorem isSpaceChar_digitChar (k : Nat) (h : k < 10) : isSpaceChar (digitChar k) = false := by
  interval_cases k <;> rfl

theorem digitChar_ne_dash (k : Nat) (h : k < 10) : digitChar k ≠ '-' := by
  interval_cases k <;> decide

theorem parseFixedNat4 (a b c d : Nat) (ha : a < 10) (hb : b < 10) (hc : c < 10)
    (hd : d < 10) :
    parseFixedNat [digitChar a, digitChar b, digitChar c, digitChar d]
      = some (((a * 10 + b) * 10 + c) * 10 + d) := by
  unfold parseFixedNat
  rw [if_pos (by
    simp [isDigitChar_digitChar _ ha, isDigitChar_digitChar _ hb,
      isDigitChar_digitChar _ hc, isDigitChar_digitChar _ hd])]
  simp only [List.foldl_cons, List.foldl_nil, digitVal_digitChar _ ha,
    digitVal_digitChar _ hb, digitVal_digitChar _ hc, digitVal_digitChar _ hd]
  congr 1
  omega

theorem parseFixedNat2 (a b : Nat) (ha : a < 10) (hb : b < 10) :
    parseFixedNat [digitChar a, digitChar b] = some (a * 10 + b) := by
  unfold parseFixedNat
  rw [if_pos (by simp [isDigitChar_digitChar _ ha, isDigitChar_digitChar _ hb])]
  simp only [List.foldl_cons, List.foldl_nil, digitVal_digitChar _ ha,
    digitVal_digitChar _ hb]
  congr 1
  omega

/-- The explicit character list of a rendered full ISO date. -/
theorem isoRender_eq_list (y m d : Nat) (hy : y < 10000) (hm : m < 100) (hd : d < 100) :
    isoRender y m d = [digitChar (y / 1000), digitChar (y / 100 % 10),
      digitChar (y / 10 % 10), digitChar (y % 10), '-', digitChar (m / 10),
      digitChar (m % 10), '-', digitChar (d / 10), digitChar (d % 10)] := by
  unfold isoRender pad4 pad2
  rw [if_pos hy, if_pos hm, if_pos hd]
  simp only [List.cons_append, List.nil_append]

theorem daysIn_le (y m : Nat) : daysIn y m ≤ 31 := by
  unfold daysIn
  split
  · split <;> omega
  · split <;> omega

theorem validMonthDay_true (y m d : Nat) (h1 : 1 ≤ m) (h2 : m ≤ 12) (h3 : 1 ≤ d)
    (h4 : d ≤ daysIn y m) : validMonthDay y m d = true := by
  simp [validMonthDay, h1, h2, h3, h4]

/-- Parsing a rendered full ISO date recovers its fields. -/
theorem parseISODate_isoRender (y m d : Nat) (hy : y < 10000) (hm : m < 100)
    (hd : d < 100) :
    parseISODate (isoRender y m d)
      = if validMonthDay y m d then some ⟨y, m, d, 0, 0, 0⟩ else none := by
  rw [isoRender_eq_list y m d hy hm hd]
  simp only [parseISODate, and_self, if_true]
  rw [parseFixedNat4 _ _ _ _ (by omega) (by omega) (by omega) (by omega),
    parseFixedNat2 _ _ (by omega) (by omega), parseFixedNat2 _ _ (by omega) (by omega)]
  have hyy : ((y / 1000 * 10 + y / 100 % 10) * 10 + y / 10 % 10) * 10 + y % 10 = y := by
    omega
  have hmm : m / 10 * 10 + m % 10 = m := by omega
  have hdd : d / 10 * 10 + d % 10 = d := by omega
  rw [hyy, hmm, hdd]

theorem dropWhile_nonspace : ∀ s : GoStr, (∀ c ∈ s, isSpaceChar c = false) →
    s.dropWhile isSpaceChar = s
  | [], _ => rfl
  | c :: t, h => by
    rw [List.dropWhile_cons, if_neg (by simp [h c (List.mem_cons_self c t)])]

theorem goTrimSpace_nonspace (s : GoStr) (h : ∀ c ∈ s, isSpaceChar c = false) :
    goTrimSpace s = s := by
  unfold goTrimSpace
  rw [dropWhile_nonspace _ (fun c hc => h c (List.mem_reverse.mp hc)),
    List.reverse_reverse, dropWhile_nonspace _ h]

theorem isoRender_nonspace (y m d : Nat) (hy : y < 10000) (hm : m < 100)
    (hd : d < 100) : ∀ c ∈ isoRender y m d, isSpaceChar c = false := by
  rw [isoRender_eq_list y m d hy hm hd]
  intro c hc
  simp only [List.mem_cons, List.not_mem_nil, or_false] at hc
  rcases hc with rfl | rfl | rfl | rfl | rfl | rfl | rfl | rfl | rfl | rfl <;>
    first
      | exact isSpaceChar_digitChar _ (by omega)
      | decide

/-- `parseBirthday` on a rendered full ISO date with valid fields returns
exactly those fields (the first format in the list matches and the string
does not carry the year-unknown marker). -/
theorem parseBirthday_isoRender (cy y m d : Nat) (hy : y < 10000)
    (hm1 : 1 ≤ m) (hm2 : m ≤ 12) (hd1 : 1 ≤ d) (hd2 : d ≤ daysIn y m) :
    parseBirthday cy (isoRender y m d) = ⟨y, m, d, 0, 0, 0⟩ := by
  have hm' : m < 100 := by omega
  have hd' : d < 100 := by have := daysIn_le y m; omega
  have hv := validMonthDay_true y m d hm1 hm2 hd1 hd2
  have hiso := parseISODate_isoRender y m d hy hm' hd'
  rw [hv, if_pos rfl] at hiso
  have hne : isoRender y m d ≠ [] := by
    rw [isoRender_eq_list y m d hy hm' hd']
    simp
  have hlw : leadsWith (isoRender y m d) ['-', '-'] = false := by
    rw [isoRender_eq_list y m d hy hm' hd']
    simp [leadsWith, digitChar_ne_dash _ (by omega : y / 1000 < 10)]
  unfold parseBirthday
  rw [goTrimSpace_nonspace _ (isoRender_nonspace y m d hy hm' hd'), if_neg hne]
  unfold tryFormats
  rw [hiso]
  simp only [hlw, Bool.false_eq_true, if_false]

theorem natDigits_ne_nil (n : Nat) : natDigits n ≠ [] := by
  unfold natDigits
  split
  · simp
  · next h =>
    cases n with
    | zero => exact absurd rfl h
    | succ k => simp [natDigitsAux]

theorem pad2_ne_nil (n : Nat) : pad2 n ≠ [] := by
  unfold pad2
  split
  · simp
  · exact natDigits_ne_nil n

/-! ### C8 -/

/-- C8 counterexample: "0001-01-01" is a full ISO birthday string whose
valid year 1 differs from the current year, yet parse-then-format yields
the empty string rather than "01/01/0001": the parsed date is Go's zero
time, which display formatting treats as absent. -/
theorem birthday_roundtrip_fails_year_one :
    isoRender 1 1 1 = "0001-01-01".toList
    ∧ FormatBirthdayForDisplay 2026 (parseBirthday 2026 ("0001-01-01".toList)) = []
    ∧ FormatBirthdayForDisplay 2026 (parseBirthday 2026 ("0001-01-01".toList))
        ≠ "01/01/0001".toList
    ∧ (1 : Nat) ≠ 2026 := by decide

/-- C8 amended: for every full ISO birthday string whose year differs from
the current calendar year and whose date is not 0001-01-01 (Go's zero
time), parse-then-format round-trips to `MM/DD/YYYY` with the original
month, day and year. -/
theorem birthday_roundtrip (cy y m d : Nat) (hy : y ≤ 9999)
    (hm : 1 ≤ m ∧ m ≤ 12) (hd : 1 ≤ d ∧ d ≤ daysIn y m)
    (hne : y ≠ cy) (hnz : ¬(y = 1 ∧ m = 1 ∧ d = 1)) :
    FormatBirthdayForDisplay cy (parseBirthday cy (isoRender y m d))
      = pad2 m ++ ['/'] ++ pad2 d ++ ['/'] ++ pad4 y := by
  rw [parseBirthday_isoRender cy y m d (by omega) hm.1 hm.2 hd.1 hd.2]
  unfold FormatBirthdayForDisplay
  rw [if_neg (by simp [isZero, zeroGoTime]; omega), if_neg hne]

/-- Witness for C8 amended at January 15, 1990 with current year 2026. -/
theorem birthday_roundtrip_witness :
    FormatBirthdayForDisplay 2026 (parseBirthday 2026 (isoRender 1990 1 15))
      = "01/15/1990".toList := by
  rw [birthday_roundtrip 2026 1990 1 15 (by omega) (by omega)
    (by constructor <;> decide) (by omega) (by omega)]
  decide

/-! ### C9 -/

/-- C9 counterexample: the parser accepts "0001-01-01" as a concrete
calendar date, but the parsed result is exactly the absent sentinel (the
zero time): display formatting renders it as absent and the birthday
listing filter drops it, so it is not distinguishable from absence. -/
theorem zero_date_conflated_with_absent :
    parseISODate ("0001-01-01".toList) = some zeroGoTime
    ∧ parseBirthday 2026 ("0001-01-01".toList) = zeroGoTime
    ∧ isZero (parseBirthday 2026 ("0001-01-01".toList)) = true
    ∧ birthdayContactsFilter
        [{ blankContact with birthday := parseBirthday 2026 ("0001-01-01".toList) }]
        = [] := by decide

/-- C9 amended: every parsed birthday other than the zero time is
distinguishable from the absent sentinel — display formatting renders it
non-empty, the birthday listing keeps it — and under the birthday
comparator a present date always precedes the absent sentinel and never
follows it, in both directions. -/
theorem birthday_present_distinct (cy : Nat) (s : GoStr)
    (h : parseBirthday cy s ≠ zeroGoTime) :
    isZero (parseBirthday cy s) = false
    ∧ FormatBirthdayForDisplay cy (parseBirthday cy s) ≠ []
    ∧ (∀ c a : Contact, c.birthday = parseBirthday cy s → a.birthday = zeroGoTime →
        birthdayContactsFilter [c] = [c]
        ∧ ∀ reverse, birthdayLess reverse c a = true ∧ birthdayLess reverse a c = false) := by
  have hz : isZero (parseBirthday cy s) = false := by
    simp [isZero, h]
  refine ⟨hz, ?_, ?_⟩
  · unfold FormatBirthdayForDisplay
    rw [if_neg (by simp [hz])]
    split <;> simp [pad2_ne_nil]
  · intro c a hc ha
    have hzc : isZero c.birthday = false := by rw [hc]; exact hz
    have hza : isZero a.birthday = true := by rw [ha]; simp [isZero]
    refine ⟨by simp [birthdayContactsFilter, hzc], fun reverse => ?_⟩
    constructor
    · simp [birthdayLess, hzc, hza]
    · simp [birthdayLess, hzc, hza]

/-- Witness for C9 amended at a concrete parsed birthday. -/
theorem birthday_present_distinct_witness :
    parseBirthday 2026 ("1990-01-15".toList) ≠ zeroGoTime
    ∧ isZero (parseBirthday 2026 ("1990-01-15".toList)) = false
    ∧ FormatBirthdayForDisplay 2026 (parseBirthday 2026 ("1990-01-15".toList)) ≠ [] :=
  ⟨by decide, (birthday_present_distinct 2026 _ (by decide)).1,
    (birthday_present_distinct 2026 _ (by decide)).2.1⟩

end Ghard
